import Mathlib

/-!
Verification of the screener repository (screener_pea_streamlit.py and
pea_generator.py) against its natural-language specification.

Modelling conventions, used throughout:
* Python floats are modelled as exact rationals; a float NaN is `Option.none`
  and a defined float value `x` is `Option.some x`.
* The float square root inside the rolling standard deviation is modelled by
  `Rat.sqrt` (exact on perfect squares).  No theorem below depends on the
  values produced by the square root, only on comparisons between them.
* Python `str.strip` and `str.lower` are modelled over the character list of
  a string (`pyStrip`, `pyLower`); the Python `in` substring test is
  `strContains`.
* A pandas `DataFrame` is a list of named columns, each a list of string
  cells, written `List (String × List String)`.  Looking a key up in a
  Python `dict` built by repeated assignment is `dictGet` (last write to a
  key wins, as in Python).
-/

namespace Screener

/-- Model of Python `str.strip`: remove leading and trailing whitespace. -/
def pyStrip (s : String) : String :=
  ⟨((s.data.dropWhile Char.isWhitespace).reverse.dropWhile Char.isWhitespace).reverse⟩

/-- Model of Python `str.lower` (ASCII lowering, as used on column names and
exchange names in the sources). -/
def pyLower (s : String) : String :=
  ⟨s.data.map Char.toLower⟩

/-- Model of Python `str.upper` (ASCII raising, used on country codes). -/
def pyUpper (s : String) : String :=
  ⟨s.data.map Char.toUpper⟩

/-- Model of the Python substring test `needle in hay`. -/
def strContains (hay needle : String) : Bool :=
  (List.range (hay.data.length + 1)).any (fun i => needle.data.isPrefixOf (hay.data.drop i))

/-- Lookup in a Python dict that was built by repeated assignment
`out[k] = v` while iterating: the last assignment to a key wins. -/
def dictGet (l : List (String × List String)) (k : String) : Option (List String) :=
  l.foldl (fun acc c => if c.1 = k then some c.2 else acc) none

/-- Model of pandas `drop_duplicates` keeping the first occurrence of each
key.  `seen` is the accumulator of keys already emitted (initially `[]`). -/
def dropDupBy (key : α → String) (seen : List String) : List α → List α
  | [] => []
  | r :: rs =>
    if seen.contains (key r) then dropDupBy key seen rs
    else r :: dropDupBy key (key r :: seen) rs

/-! ## Universe loader (`parse_universe`, screener_pea_streamlit.py lines 71-91) -/

/-- One row of the normalized universe table.  The optional `mic` column is
kept when the input provided one (the code maps a `mic` column but never
defaults it). -/
structure URow where
  ticker : String
  exchange : String
  country_code : String
  name : String
  sector : String
  mic : Option String
deriving DecidableEq, Repr

/-- The `cols_map` dictionary of `parse_universe`: canonical field for a
stripped, lowercased column name. -/
def canonOf (key : String) : Option String :=
  if key = "ticker" then some "ticker"
  else if key = "symbol" then some "ticker"
  else if key = "exchange" then some "exchange"
  else if key = "mic" then some "mic"
  else if key = "name" then some "name"
  else if key = "company" then some "name"
  else if key = "country" then some "country_code"
  else if key = "country_code" then some "country_code"
  else if key = "country_iso2" then some "country_code"
  else if key = "sector" then some "sector"
  else none

/-- The `out` dict of `parse_universe`: every recognized column, renamed to
its canonical name, with values `astype(str).str.strip()`. -/
def mappedCols (df : List (String × List String)) : List (String × List String) :=
  df.filterMap (fun c => (canonOf (pyLower (pyStrip c.1))).map (fun k => (k, c.2.map pyStrip)))

/-- The rows of the `res` data frame of `parse_universe` before
`drop_duplicates`: missing optional columns default to the empty string and
`country_code` is uppercased. -/
def rawRows (df : List (String × List String)) : List URow :=
  let m := mappedCols df
  let tickers := (dictGet m "ticker").getD []
  let n := tickers.length
  let exchanges := (dictGet m "exchange").getD (List.replicate n "")
  let ccs := ((dictGet m "country_code").getD (List.replicate n "")).map pyUpper
  let names := (dictGet m "name").getD (List.replicate n "")
  let sectors := (dictGet m "sector").getD (List.replicate n "")
  let mics := dictGet m "mic"
  (List.range n).map (fun i =>
    { ticker := tickers.getD i ""
      exchange := exchanges.getD i ""
      country_code := ccs.getD i ""
      name := names.getD i ""
      sector := sectors.getD i ""
      mic := mics.map (fun vs => vs.getD i "") })

/-- `parse_universe`: fails when no column mapped to `ticker` (the French
error message of the source is abbreviated here), otherwise returns the
de-duplicated rows (`drop_duplicates(subset=["ticker"])`, first wins). -/
def parse_universe (df : List (String × List String)) : Except String (List URow) :=
  match dictGet (mappedCols df) "ticker" with
  | none => .error "CSV must contain at least a ticker (or symbol) column"
  | some _ => .ok (dropDupBy (fun r => r.ticker) [] (rawRows df))

/-! ## Country filter (screener_pea_streamlit.py lines 16-23 and 186-194) -/

/-- The EU/EEA ISO-2 accepted set (`EU_EEA_ISO2`). -/
def EU_EEA_ISO2 : List String :=
  ["AT", "BE", "BG", "HR", "CY", "CZ", "DK", "EE", "FI", "FR", "DE", "GR", "HU", "IE", "IT",
   "LV", "LT", "LU", "MT", "NL", "PL", "PT", "RO", "SK", "SI", "ES", "SE",
   "NO", "IS", "LI"]

/-- The excluded set (`EXCLUDE_ISO2`). -/
def EXCLUDE_ISO2 : List String := ["GB", "CH", "US", "CA"]

/-- `is_pea_country`. -/
def is_pea_country (iso2 : String) : Bool := EU_EEA_ISO2.contains iso2

/-- The `force_pea` branch: keep rows whose country code is accepted. -/
def pea_filter (rows : List URow) : List URow :=
  rows.filter (fun r => is_pea_country r.country_code)

/-- The `exclude_non_eee` branch: keep rows whose country code is not in the
excluded set. -/
def exclude_filter (rows : List URow) : List URow :=
  rows.filter (fun r => !(EXCLUDE_ISO2.contains r.country_code))

/-! ## Ticker suffixes (pea_generator.py lines 119-128, screener lines 332-342) -/

/-- `infer_suffix` of pea_generator.py: appends a Yahoo market suffix from
city or country keywords of the exchange name, unless the ticker already
contains a dot. -/
def infer_suffix (ticker exchange : String) : String :=
  if ticker.data.contains '.' then ticker
  else
    let e := pyLower exchange
    if strContains e "paris" || strContains e "france" then ticker ++ ".PA"
    else if strContains e "amsterdam" || strContains e "netherlands" then ticker ++ ".AS"
    else if strContains e "brussels" || strContains e "belgium" then ticker ++ ".BR"
    else if strContains e "lisbon" || strContains e "portugal" then ticker ++ ".LS"
    else if strContains e "dublin" || strContains e "ireland" then ticker ++ ".IR"
    else ticker

/-- `add_suffix` of the screener inline generator: only matches the four
city names and has no Dublin/Ireland case and no country-name cases. -/
def add_suffix (ticker exchange : String) : String :=
  let e := pyLower exchange
  if ticker.data.contains '.' then ticker
  else if strContains e "paris" then ticker ++ ".PA"
  else if strContains e "amsterdam" then ticker ++ ".AS"
  else if strContains e "brussels" then ticker ++ ".BR"
  else if strContains e "lisbon" then ticker ++ ".LS"
  else ticker

/-! ## Universe generation (pea_generator.py lines 88-148) -/

/-- One row of the generator working frame `out`. -/
structure GRow where
  ticker : String
  name : String
  exchange : String
  country_code : String
deriving DecidableEq, Repr

/-- Ticker cleaning of pea_generator.py line 109: the exact cell values
`nan` and `None` become empty, then every whitespace character is removed
(the regex `\s+` replaced by the empty string). -/
def cleanTicker (t : String) : String :=
  let t := if t = "nan" ∨ t = "None" then "" else t
  ⟨t.data.filter (fun c => !c.isWhitespace)⟩

/-- The formatted output table of pea_generator.py (lines 88-148): build the
four working columns from the selected source columns (a `none` selection is
the `<aucune>` choice), strip values, clean tickers, drop empty tickers,
optionally add suffixes and drop duplicate tickers, then reindex to the
final four columns `ticker, exchange, country_code, name` (line 139). -/
def pea_generator_out (df : List (String × List String)) (ticker_col : String)
    (name_col exch_col country_col : Option String)
    (add_suffixes drop_dupes : Bool) : List (String × List String) :=
  let tickRaw := ((df.lookup ticker_col).getD []).map pyStrip
  let n := tickRaw.length
  let nameVals := match name_col with
    | some c => ((df.lookup c).getD []).map pyStrip
    | none => List.replicate n ""
  let exchVals := match exch_col with
    | some c => ((df.lookup c).getD []).map pyStrip
    | none => List.replicate n "Euronext"
  let ctryVals := match country_col with
    | some c => ((df.lookup c).getD []).map pyStrip
    | none => List.replicate n ""
  let rows0 := (List.range n).map (fun i =>
    ({ ticker := cleanTicker (tickRaw.getD i "")
       name := nameVals.getD i ""
       exchange := exchVals.getD i ""
       country_code := ctryVals.getD i "" } : GRow))
  let rows1 := rows0.filter (fun r => 0 < r.ticker.data.length)
  let rows2 :=
    if add_suffixes then rows1.map (fun r => { r with ticker := infer_suffix r.ticker r.exchange })
    else rows1
  let rows3 := if drop_dupes then dropDupBy (fun r => r.ticker) [] rows2 else rows2
  [("ticker", rows3.map (fun r => r.ticker)),
   ("exchange", rows3.map (fun r => r.exchange)),
   ("country_code", rows3.map (fun r => r.country_code)),
   ("name", rows3.map (fun r => r.name))]

/-- The keys of the dict `cols = {c.lower(): c}` of the screener inline
generator (line 313): lowercased column names, first occurrence kept. -/
def screenerColsKeys (rawCols : List String) : List String :=
  dropDupBy (fun s => s) [] (rawCols.map pyLower)

/-- `cand_ticker` of the screener inline generator (line 315). -/
def cand_ticker (rawCols : List String) : List String :=
  (screenerColsKeys rawCols).filter
    (fun k => strContains k "ticker" || strContains k "mnemo" || strContains k "symbol")

/-- `cand_name` of the screener inline generator (line 314). -/
def cand_name (rawCols : List String) : List String :=
  (screenerColsKeys rawCols).filter
    (fun k => strContains k "nom" || strContains k "name" || strContains k "issuer" ||
      strContains k "company")

/-- `cand_market` of the screener inline generator (line 316). -/
def cand_market (rawCols : List String) : List String :=
  (screenerColsKeys rawCols).filter
    (fun k => strContains k "market" || strContains k "exchange" || strContains k "place")

/-- `cand_country` of the screener inline generator (line 317). -/
def cand_country (rawCols : List String) : List String :=
  (screenerColsKeys rawCols).filter
    (fun k => strContains k "pays" || strContains k "country")

/-- Column list of the `work` frame (and hence of `pea_out` and of the
exported CSV) of the screener inline generator, lines 324-329: columns are
created in the order ticker, name, exchange, country_code, each present
exactly when a candidate source column was detected (`country_code` always
exists).  `add_suffix` and `drop_duplicates` do not change the column set,
so `pea_out` exports exactly these columns in this order. -/
def screener_pea_out_cols (rawCols : List String) : List String :=
  (if cand_ticker rawCols ≠ [] then ["ticker"] else []) ++
    (if cand_name rawCols ≠ [] then ["name"] else []) ++
      (if cand_market rawCols ≠ [] then ["exchange"] else []) ++ ["country_code"]

/-! ## Indicator engine (`compute_indicators`, screener_pea_streamlit.py lines 96-147) -/

/-- One bar of the downloaded price frame.  The `Open` column is never read
by `compute_indicators`, so it is not modelled. -/
structure PriceBar where
  high : ℚ
  low : ℚ
  close : ℚ
  volume : ℚ
deriving DecidableEq, Repr

/-- The rolling window of width `w` ending at index `i` (the last `w`
entries of the first `i + 1`). -/
def windowAt (w : Nat) (xs : List ℚ) (i : Nat) : List ℚ :=
  (xs.take (i + 1)).drop (i + 1 - w)

/-- Arithmetic mean of a list. -/
def listMean (xs : List ℚ) : ℚ := xs.sum / (xs.length : ℚ)

/-- Population variance (`ddof=0`) of a list. -/
def listPVar (xs : List ℚ) : ℚ :=
  ((xs.map (fun x => (x - listMean xs) ^ 2)).sum) / (xs.length : ℚ)

/-- Population standard deviation, the float square root modelled by
`Rat.sqrt`. -/
def pstd (xs : List ℚ) : ℚ := Rat.sqrt (listPVar xs)

/-- pandas `rolling(w)` followed by an aggregation `f` over a fully defined
series: positions with fewer than `w` observations are NaN. -/
def rollingO (w : Nat) (f : List ℚ → ℚ) (xs : List ℚ) : List (Option ℚ) :=
  (List.range xs.length).map (fun i =>
    if w ≤ i + 1 then some (f (windowAt w xs i)) else none)

/-- pandas `rolling(w)` over a series that may already contain NaN cells
(`min_periods` defaults to `w`, so any NaN inside the window gives NaN). -/
def rollingOO (w : Nat) (f : List ℚ → ℚ) (xs : List (Option ℚ)) : List (Option ℚ) :=
  (List.range xs.length).map (fun i =>
    let win := (xs.take (i + 1)).drop (i + 1 - w)
    if w ≤ i + 1 ∧ win.all (fun o => o.isSome) then some (f (win.filterMap id)) else none)

/-- pandas `Series.dropna`. -/
def dropna (s : List (Option ℚ)) : List ℚ := s.filterMap id

/-- `last_percentile` (lines 110-116): drop NaN (written `dropna s` at each
use), then the percentile rank of the last defined value against the whole
defined history, `(s <= last).mean() * 100`. -/
def lastPercentile (s : List (Option ℚ)) : Option ℚ :=
  match (dropna s).getLast? with
  | none => none
  | some last =>
    some (((((dropna s).filter (fun x => x ≤ last)).length : ℚ) / ((dropna s).length : ℚ)) * 100)

/-- The last entry of a series of optional values (`iloc[-1]`, NaN when the
series is empty, which the source would crash on). -/
def lastO (l : List (Option ℚ)) : Option ℚ := (l.getLast?).join

/-- The Bollinger band width series (lines 101-106):
`sma = close.rolling(w).mean()`, `stdev = close.rolling(w).std(ddof=0)`,
`bbw = ((sma + k*stdev) - (sma - k*stdev)) / sma`. -/
def bbwList (closes : List ℚ) (w : Nat) (k : ℚ) : List (Option ℚ) :=
  (rollingO w listMean closes).zipWith
    (fun m s => match m, s with
      | some m, some s => some (((m + k * s) - (m - k * s)) / m)
      | _, _ => none)
    (rollingO w pstd closes)

/-- The true range at index `i` (lines 118-127).  For the first bar the
previous close is NaN and the pandas row-wise `max` skips NaN entries,
leaving `high - low`. -/
def trAt (px : List PriceBar) (i : Nat) : ℚ :=
  let b := px.getD i ⟨0, 0, 0, 0⟩
  match i with
  | 0 => b.high - b.low
  | j + 1 =>
    let pc := (px.getD j ⟨0, 0, 0, 0⟩).close
    max (b.high - b.low) (max |b.high - pc| |b.low - pc|)

/-- The true range series. -/
def trList (px : List PriceBar) : List ℚ :=
  (List.range px.length).map (trAt px)

/-- The ATR percentage series (lines 128-130):
`atr = tr.rolling(aw).mean()`, `atr_pct = atr / close * 100`. -/
def atrPctList (px : List PriceBar) (aw : Nat) : List (Option ℚ) :=
  (rollingO aw listMean (trList px)).zipWith
    (fun a c => a.map (fun x => x / c * 100)) (px.map (fun b => b.close))

/-- One-day returns, `close.pct_change()` (line 133): NaN at index 0. -/
def retList (closes : List ℚ) : List (Option ℚ) :=
  (List.range closes.length).map (fun i =>
    match i with
    | 0 => none
    | j + 1 => some (closes.getD (j + 1) 0 / closes.getD j 0 - 1))

/-- The rolling volatility series (line 134):
`ret.rolling(vw).std(ddof=0) * 100`. -/
def sigmaList (closes : List ℚ) (vw : Nat) : List (Option ℚ) :=
  (rollingOO vw pstd (retList closes)).map (fun o => o.map (fun x => x * 100))

/-- The metrics dict returned by `compute_indicators` (lines 139-146).
`close` is `float(last["Close"])`, total here via `getLast?` (the source
would raise on an empty frame, which its caller rules out). -/
structure Metrics where
  close : Option ℚ
  avg_vol_20 : Option ℚ
  bbw : Option ℚ
  bbw_percentile : Option ℚ
  atr_pct : Option ℚ
  sigma20_pct : Option ℚ
deriving DecidableEq, Repr

/-- `compute_indicators`. -/
def compute_indicators (px : List PriceBar) (bb_win : Nat) (bb_std : ℚ)
    (atr_win vol_win : Nat) : Metrics :=
  let closes := px.map (fun b => b.close)
  let b := bbwList closes bb_win bb_std
  { close := closes.getLast?
    avg_vol_20 := lastO (rollingO 20 listMean (px.map (fun bar => bar.volume)))
    bbw := lastO b
    bbw_percentile := lastPercentile b
    atr_pct := lastO (atrPctList px atr_win)
    sigma20_pct := lastO (sigmaList closes vol_win) }

/-! ## Screening and scoring (screener_pea_streamlit.py lines 224-263) -/

/-- The configurable screen thresholds. -/
structure ScreenParams where
  min_price : ℚ
  min_avg_vol : ℚ
  bbw_pct_threshold : ℚ
  max_atr_pct : ℚ
  max_sigma_pct : ℚ
deriving DecidableEq, Repr

/-- The per-row screening of lines 224-235.  `none` is a row skipped by a
`continue` (price or volume filter), `some b` is a row kept in `results`
with `contraction_match = b`.  Note the price and volume filters skip only
when the metric is defined AND below the threshold. -/
def screenRow (m : Metrics) (p : ScreenParams) : Option Bool :=
  if (match m.close with
      | some c => decide (c < p.min_price)
      | none => false) then none
  else if (match m.avg_vol_20 with
      | some v => decide (v < p.min_avg_vol)
      | none => false) then none
  else
    let cond_bbw := match m.bbw_percentile with
      | some b => decide (b ≤ p.bbw_pct_threshold)
      | none => false
    let cond_atr := match m.atr_pct with
      | some a => decide (a ≤ p.max_atr_pct)
      | none => false
    let cond_sig := match m.sigma20_pct with
      | some s => decide (s ≤ p.max_sigma_pct)
      | none => false
    some (cond_bbw && cond_atr && cond_sig)

/-- A row is in the passing set (present in the final filtered table) when
it survives the practical filters and matches the contraction criteria. -/
def rowPasses (m : Metrics) (p : ScreenParams) : Prop := screenRow m p = some true

instance (m : Metrics) (p : ScreenParams) : Decidable (rowPasses m p) := by
  unfold rowPasses; infer_instance

/-- The screening predicate as claim C3 words it: every one of the five
inputs must be defined and satisfy its threshold. -/
def claimedPass (m : Metrics) (p : ScreenParams) : Bool :=
  (match m.close with
    | some c => decide (p.min_price ≤ c)
    | none => false) &&
  (match m.avg_vol_20 with
    | some v => decide (p.min_avg_vol ≤ v)
    | none => false) &&
  (match m.bbw_percentile with
    | some b => decide (b ≤ p.bbw_pct_threshold)
    | none => false) &&
  (match m.atr_pct with
    | some a => decide (a ≤ p.max_atr_pct)
    | none => false) &&
  (match m.sigma20_pct with
    | some s => decide (s ≤ p.max_sigma_pct)
    | none => false)

/-- The `score` accumulation of lines 239-245: each term contributes only
when its metric is defined. -/
def rawScore (m : Metrics) (max_atr_pct max_sigma_pct : ℚ) : ℚ :=
  (match m.bbw_percentile with
    | some b => (100 - b) / 100
    | none => 0) +
  (match m.atr_pct with
    | some a => max 0 ((max_atr_pct - a) / max_atr_pct) * (1 / 2)
    | none => 0) +
  (match m.sigma20_pct with
    | some s => max 0 ((max_sigma_pct - s) / max_sigma_pct) * (1 / 2)
    | none => 0)

/-- The score formula exactly as the specification words it:
`(100 − bbw_percentile)/100 + 0.5·max(0, (atr_max − atr_pct)/atr_max)
 + 0.5·max(0, (sigma_max − sigma20_pct)/sigma_max)`,
each term taken as zero when its metric is undefined. -/
def specScoreFormula (m : Metrics) (atr_max sigma_max : ℚ) : ℚ :=
  (match m.bbw_percentile with
    | some b => (100 - b) / 100
    | none => 0) +
  (match m.atr_pct with
    | some a => (1 / 2) * max 0 ((atr_max - a) / atr_max)
    | none => 0) +
  (match m.sigma20_pct with
    | some s => (1 / 2) * max 0 ((sigma_max - s) / sigma_max)
    | none => 0)

/-- Round a rational to the nearest integer, ties to even: the exact-value
model of Python float rounding. -/
def rndHE (q : ℚ) : ℤ :=
  let f := ⌊q⌋
  let r := q - (f : ℚ)
  if r < 1 / 2 then f
  else if 1 / 2 < r then f + 1
  else if f % 2 = 0 then f else f + 1

/-- Model of Python `round(x, 4)`: half-even rounding at four decimal
places. -/
def round4 (q : ℚ) : ℚ := ((rndHE (q * 10000) : ℚ)) / 10000

/-- The `contraction_score` recorded in the result row (line 262):
`round(score, 4)`. -/
def contraction_score (m : Metrics) (max_atr_pct max_sigma_pct : ℚ) : ℚ :=
  round4 (rawScore m max_atr_pct max_sigma_pct)

/-! ## Concrete example inputs used by witnesses and counterexamples -/

/-- An input table whose only column name does not map to a ticker. -/
def dfNoTicker : List (String × List String) := [("foo", ["x", "y"])]

/-- An input table with a duplicated ticker (and whitespace around the
column name and cell values). -/
def dfDup : List (String × List String) :=
  [(" Ticker ", ["AAA", "AAA", "BBB"]), ("name", [" first ", "second", "third"])]

/-- The loader output on `dfDup`. -/
def rowsDup : List URow :=
  [⟨"AAA", "", "", "first", "", none⟩, ⟨"BBB", "", "", "third", "", none⟩]

/-- A universe row with an accepted country code. -/
def rowFR : URow := ⟨"MC.PA", "Paris", "FR", "LVMH", "Luxury", none⟩

/-- A universe row with an empty country code. -/
def rowNoCC : URow := ⟨"XX", "", "", "", "", none⟩

/-- A metrics record with a bbw percentile of 200/3, whose score 1/3 is not
representable in four decimal places. -/
def mRound : Metrics := ⟨some 5, some 60000, some (1/10), some (200/3), none, none⟩

/-- A twelve-bar price series (two bars at 2, then constant at 1, flat
high/low): shorter than the 20-day volume window, so `avg_vol_20` is NaN,
while all contraction metrics are defined and small. -/
def pxC : List PriceBar :=
  [⟨2, 2, 2, 1⟩, ⟨2, 2, 2, 1⟩, ⟨1, 1, 1, 1⟩, ⟨1, 1, 1, 1⟩, ⟨1, 1, 1, 1⟩, ⟨1, 1, 1, 1⟩,
   ⟨1, 1, 1, 1⟩, ⟨1, 1, 1, 1⟩, ⟨1, 1, 1, 1⟩, ⟨1, 1, 1, 1⟩, ⟨1, 1, 1, 1⟩, ⟨1, 1, 1, 1⟩]

/-- The metrics computed on `pxC` with windows 10/5/5 and k = 2. -/
def mNaNVol : Metrics := ⟨some 1, none, some 0, some (100 / 3), some 0, some 0⟩

/-- Default-like screen parameters (price 1, volume 50000, bbw percentile
threshold at the slider maximum 50, ATR 2, sigma 5/2). -/
def pDefault : ScreenParams := ⟨1, 50000, 50, 2, 5 / 2⟩

/-- The closes of `pxC`. -/
def closesC : List ℚ := [2, 2, 1, 1, 1, 1, 1, 1, 1, 1, 1, 1]

/-- A three-bar constant price series used by the percentile witnesses. -/
def pxConst : List PriceBar :=
  [⟨10, 10, 10, 7⟩, ⟨10, 10, 10, 7⟩, ⟨10, 10, 10, 7⟩]

/-- A four-bar constant price series used by the percentile bound witness. -/
def pxConst2 : List PriceBar :=
  [⟨5, 5, 5, 3⟩, ⟨5, 5, 5, 3⟩, ⟨5, 5, 5, 3⟩, ⟨5, 5, 5, 3⟩]

/-! ## General helper lemmas -/

attribute [local semireducible] Rat.add Rat.mul Rat.sub Rat.inv Rat.ofScientific

theorem getLast?_mem {α : Type} : ∀ (l : List α) (a : α), l.getLast? = some a → a ∈ l := by
  intro l
  induction l with
  | nil => intro a h; simp at h
  | cons x xs ih =>
    intro a h
    cases xs with
    | nil => simp_all
    | cons y ys =>
      rw [List.getLast?_cons_cons] at h
      exact List.mem_cons_of_mem _ (ih a h)

theorem dictGet_aux_of_no_key (k : String) :
    ∀ (l : List (String × List String)) (init : Option (List String)),
      (∀ c ∈ l, c.1 ≠ k) →
      l.foldl (fun acc c => if c.1 = k then some c.2 else acc) init = init := by
  intro l
  induction l with
  | nil => intro init _; rfl
  | cons a as ih =>
    intro init h
    rw [List.foldl_cons, if_neg (h a (List.mem_cons_self a as))]
    exact ih init (fun c hc => h c (List.mem_cons_of_mem a hc))

theorem dictGet_eq_none (l : List (String × List String)) (k : String)
    (h : ∀ c ∈ l, c.1 ≠ k) : dictGet l k = none :=
  dictGet_aux_of_no_key k l none h

theorem mem_dropDupBy_first {α : Type} (key : α → String) :
    ∀ (l : List α) (seen : List String) (r : α), r ∈ dropDupBy key seen l →
      key r ∉ seen ∧ l.find? (fun x => key x == key r) = some r := by
  intro l
  induction l with
  | nil => intro seen r h; simp [dropDupBy] at h
  | cons a as ih =>
    intro seen r h
    rw [dropDupBy] at h
    by_cases hc : seen.contains (key a)
    · rw [if_pos hc] at h
      obtain ⟨hns, hf⟩ := ih seen r h
      have hne : key a ≠ key r := by
        intro hx
        exact hns (hx ▸ (by simpa using hc))
      refine ⟨hns, ?_⟩
      rw [List.find?_cons_of_neg _ (by simpa using hne), hf]
    · rw [if_neg hc] at h
      rcases List.mem_cons.mp h with rfl | hmem
      · exact ⟨by simpa using hc, List.find?_cons_of_pos _ (by simp)⟩
      · obtain ⟨hns, hf⟩ := ih (key a :: seen) r hmem
        have hne : key a ≠ key r := fun hx => hns (hx ▸ List.mem_cons_self _ _)
        refine ⟨fun hx => hns (List.mem_cons_of_mem _ hx), ?_⟩
        rw [List.find?_cons_of_neg _ (by simpa using hne), hf]

theorem dropDupBy_keys_nodup {α : Type} (key : α → String) :
    ∀ (l : List α) (seen : List String),
      ((dropDupBy key seen l).map key).Nodup ∧
        ∀ x ∈ dropDupBy key seen l, key x ∉ seen := by
  intro l
  induction l with
  | nil => intro seen; simp [dropDupBy]
  | cons a as ih =>
    intro seen
    rw [dropDupBy]
    by_cases hc : seen.contains (key a)
    · rw [if_pos hc]
      exact ih seen
    · rw [if_neg hc]
      obtain ⟨hnd, hsub⟩ := ih (key a :: seen)
      refine ⟨?_, ?_⟩
      · rw [List.map_cons, List.nodup_cons]
        refine ⟨?_, hnd⟩
        intro hmem
        obtain ⟨x, hx, hkx⟩ := List.mem_map.mp hmem
        exact hsub x hx (hkx ▸ List.mem_cons_self _ _)
      · intro x hx
        rcases List.mem_cons.mp hx with rfl | hmem
        · simpa using hc
        · exact fun hxs => hsub x hmem (List.mem_cons_of_mem _ hxs)

/-! ## C5: loader fails without a ticker-like column -/

theorem canonOf_eq_ticker (key : String) (h : canonOf key = some "ticker") :
    key = "ticker" ∨ key = "symbol" := by
  unfold canonOf at h
  split_ifs at h <;> simp_all

/-- C5: for every input table in which no column name (trimmed and
lowercased) is `ticker` or `symbol`, `parse_universe` fails with an error
(and hence produces no output rows). -/
theorem parse_universe_no_ticker_error (df : List (String × List String))
    (h : ∀ c ∈ df, pyLower (pyStrip c.1) ≠ "ticker" ∧ pyLower (pyStrip c.1) ≠ "symbol") :
    parse_universe df = Except.error "CSV must contain at least a ticker (or symbol) column" := by
  have hnone : dictGet (mappedCols df) "ticker" = none := by
    apply dictGet_eq_none
    intro c hc hk1
    obtain ⟨d, hd, hmap⟩ := List.mem_filterMap.mp hc
    cases hcanon : canonOf (pyLower (pyStrip d.1)) with
    | none => rw [hcanon] at hmap; simp at hmap
    | some k =>
      rw [hcanon] at hmap
      simp only [Option.map_some', Option.some.injEq] at hmap
      have hck : k = "ticker" := by rw [← hmap] at hk1; simpa using hk1
      rcases canonOf_eq_ticker _ (hck ▸ hcanon) with h1 | h1
      · exact (h d hd).1 h1
      · exact (h d hd).2 h1
  unfold parse_universe
  rw [hnone]

/-- C5 witness: a table with only a `foo` column is rejected. -/
theorem parse_universe_no_ticker_witness :
    parse_universe dfNoTicker
      = Except.error "CSV must contain at least a ticker (or symbol) column" :=
  parse_universe_no_ticker_error dfNoTicker (by decide)

/-! ## C6: loader output is de-duplicated by ticker, first occurrence wins -/

/-- C6: whenever `parse_universe` succeeds, no two output rows share a
ticker, and every output row is the first pre-deduplication row carrying
its ticker (so the first occurrence supplies the other fields). -/
theorem parse_universe_dedup_first (df : List (String × List String)) (rows : List URow)
    (h : parse_universe df = Except.ok rows) :
    (rows.map (fun r => r.ticker)).Nodup ∧
      ∀ r ∈ rows, (rawRows df).find? (fun x => x.ticker == r.ticker) = some r := by
  have hrows : rows = dropDupBy (fun r => r.ticker) [] (rawRows df) := by
    unfold parse_universe at h
    cases hd : dictGet (mappedCols df) "ticker" with
    | none => rw [hd] at h; simp at h
    | some t => rw [hd] at h; simpa using h.symm
  subst hrows
  refine ⟨(dropDupBy_keys_nodup (fun r => r.ticker) (rawRows df) []).1, ?_⟩
  intro r hr
  exact (mem_dropDupBy_first (fun r => r.ticker) (rawRows df) [] r hr).2

/-- C6 witness: on a table with a duplicated ticker `AAA` the loader keeps
one row per ticker and the kept row is the first occurrence. -/
theorem parse_universe_dedup_first_witness :
    (rowsDup.map (fun r => r.ticker)).Nodup ∧
      ∀ r ∈ rowsDup, (rawRows dfDup).find? (fun x => x.ticker == r.ticker) = some r :=
  parse_universe_dedup_first dfDup rowsDup (by rfl)

/-! ## C7: country eligibility filter -/

/-- C7: in accepted-set mode a row is retained iff its country code is in
the EU/EEA set; in excluded-set mode iff its country code is not in
{GB, CH, US, CA}; an empty country code is dropped by the first policy and
kept by the second; both filters preserve input order (sublists). -/
theorem country_filter_spec (rows : List URow) (r : URow) :
    (r ∈ pea_filter rows ↔ r ∈ rows ∧ r.country_code ∈ EU_EEA_ISO2) ∧
    (r ∈ exclude_filter rows ↔ r ∈ rows ∧ r.country_code ∉ EXCLUDE_ISO2) ∧
    (r.country_code = "" → r ∉ pea_filter rows ∧ (r ∈ rows → r ∈ exclude_filter rows)) ∧
    List.Sublist (pea_filter rows) rows ∧ List.Sublist (exclude_filter rows) rows := by
  have h1 : r ∈ pea_filter rows ↔ r ∈ rows ∧ r.country_code ∈ EU_EEA_ISO2 := by
    simp [pea_filter, is_pea_country, List.mem_filter]
  have h2 : r ∈ exclude_filter rows ↔ r ∈ rows ∧ r.country_code ∉ EXCLUDE_ISO2 := by
    simp [exclude_filter, List.mem_filter]
  refine ⟨h1, h2, fun hcc => ⟨fun hmem => ?_, fun hrows => h2.mpr ⟨hrows, by rw [hcc]; decide⟩⟩,
    List.filter_sublist rows, List.filter_sublist rows⟩
  have hin := (h1.mp hmem).2
  rw [hcc] at hin
  exact absurd hin (by decide)

/-- C7 witness: a French row is retained by the accepted-set filter, a row
with empty country code is dropped by it and kept by the excluded-set
filter. -/
theorem country_filter_witness :
    rowFR ∈ pea_filter [rowFR, rowNoCC] ∧ rowNoCC ∉ pea_filter [rowFR, rowNoCC] ∧
      rowNoCC ∈ exclude_filter [rowFR, rowNoCC] :=
  ⟨(country_filter_spec [rowFR, rowNoCC] rowFR).1.mpr ⟨by decide, by decide⟩,
   ((country_filter_spec [rowFR, rowNoCC] rowNoCC).2.2.1 rfl).1,
   ((country_filter_spec [rowFR, rowNoCC] rowNoCC).2.2.1 rfl).2 (by decide)⟩

/-! ## C8: market suffixes -/

/-- C8 (amended): a ticker already containing a dot is left unchanged by
both suffix functions.  For a dot-free ticker, pea_generator's
`infer_suffix` appends `.PA` for Paris/France, `.AS` for
Amsterdam/Netherlands, `.BR` for Brussels/Belgium, `.LS` for
Lisbon/Portugal and `.IR` for Dublin/Ireland (earlier branches taking
precedence), while the screener's `add_suffix` matches only the four city
names `paris`, `amsterdam`, `brussels`, `lisbon` and never appends `.IR`
nor reacts to country names. -/
theorem suffix_rules (t e : String) :
    (t.data.contains '.' = true → infer_suffix t e = t ∧ add_suffix t e = t) ∧
    (t.data.contains '.' = false →
      (((strContains (pyLower e) "paris" || strContains (pyLower e) "france") = true →
          infer_suffix t e = t ++ ".PA") ∧
       ((strContains (pyLower e) "paris" || strContains (pyLower e) "france") = false →
          (strContains (pyLower e) "amsterdam" || strContains (pyLower e) "netherlands") = true →
          infer_suffix t e = t ++ ".AS") ∧
       ((strContains (pyLower e) "paris" || strContains (pyLower e) "france") = false →
          (strContains (pyLower e) "amsterdam" || strContains (pyLower e) "netherlands") = false →
          (strContains (pyLower e) "brussels" || strContains (pyLower e) "belgium") = true →
          infer_suffix t e = t ++ ".BR") ∧
       ((strContains (pyLower e) "paris" || strContains (pyLower e) "france") = false →
          (strContains (pyLower e) "amsterdam" || strContains (pyLower e) "netherlands") = false →
          (strContains (pyLower e) "brussels" || strContains (pyLower e) "belgium") = false →
          (strContains (pyLower e) "lisbon" || strContains (pyLower e) "portugal") = true →
          infer_suffix t e = t ++ ".LS") ∧
       ((strContains (pyLower e) "paris" || strContains (pyLower e) "france") = false →
          (strContains (pyLower e) "amsterdam" || strContains (pyLower e) "netherlands") = false →
          (strContains (pyLower e) "brussels" || strContains (pyLower e) "belgium") = false →
          (strContains (pyLower e) "lisbon" || strContains (pyLower e) "portugal") = false →
          (strContains (pyLower e) "dublin" || strContains (pyLower e) "ireland") = true →
          infer_suffix t e = t ++ ".IR")) ∧
      ((strContains (pyLower e) "paris" = true → add_suffix t e = t ++ ".PA") ∧
       (strContains (pyLower e) "paris" = false →
          strContains (pyLower e) "amsterdam" = true → add_suffix t e = t ++ ".AS") ∧
       (strContains (pyLower e) "paris" = false →
          strContains (pyLower e) "amsterdam" = false →
          strContains (pyLower e) "brussels" = true → add_suffix t e = t ++ ".BR") ∧
       (strContains (pyLower e) "paris" = false →
          strContains (pyLower e) "amsterdam" = false →
          strContains (pyLower e) "brussels" = false →
          strContains (pyLower e) "lisbon" = true → add_suffix t e = t ++ ".LS") ∧
       (strContains (pyLower e) "paris" = false →
          strContains (pyLower e) "amsterdam" = false →
          strContains (pyLower e) "brussels" = false →
          strContains (pyLower e) "lisbon" = false → add_suffix t e = t))) := by
  refine ⟨fun hdot => ⟨by simp_all [infer_suffix], by simp_all [add_suffix]⟩,
    fun hdot => ⟨?_, ?_⟩⟩
  · refine ⟨fun h1 => by simp_all [infer_suffix],
      fun h1 h2 => by simp_all [infer_suffix],
      fun h1 h2 h3 => by simp_all [infer_suffix],
      fun h1 h2 h3 h4 => by simp_all [infer_suffix],
      fun h1 h2 h3 h4 h5 => by simp_all [infer_suffix]⟩
  · refine ⟨fun h1 => by simp_all [add_suffix],
      fun h1 h2 => by simp_all [add_suffix],
      fun h1 h2 h3 => by simp_all [add_suffix],
      fun h1 h2 h3 h4 => by simp_all [add_suffix],
      fun h1 h2 h3 h4 => by simp_all [add_suffix]⟩

/-- C8 counterexample: for the dot-free ticker `XYZ` on the exchange
`Dublin`, the screener's `add_suffix` does not produce `XYZ.IR` (it leaves
the ticker unchanged), although pea_generator's `infer_suffix` does; so the
claimed `.IR for Dublin/Ireland` rule does not hold for the code cited at
screener_pea_streamlit.py lines 332-342. -/
theorem add_suffix_dublin_counterexample :
    ¬ add_suffix "XYZ" "Dublin" = "XYZ.IR" ∧ add_suffix "XYZ" "Dublin" = "XYZ" ∧
      infer_suffix "XYZ" "Dublin" = "XYZ.IR" := by
  refine ⟨?_, ?_, ?_⟩ <;> decide

/-- C8 witness: the spec scenario, ticker `XYZ` on exchange `Paris`, gets
`XYZ.PA` from both functions, and a dotted ticker is left unchanged. -/
theorem suffix_rules_witness :
    infer_suffix "XYZ" "Paris" = "XYZ.PA" ∧ add_suffix "XYZ" "Paris" = "XYZ.PA" ∧
      infer_suffix "MC.PA" "Paris" = "MC.PA" :=
  ⟨((suffix_rules "XYZ" "Paris").2 (by decide)).1.1 (by decide),
   ((suffix_rules "XYZ" "Paris").2 (by decide)).2.1 (by decide),
   ((suffix_rules "MC.PA" "Paris").1 (by decide)).1⟩

/-! ## C9: generated CSV columns -/

/-- C9 (amended): pea_generator's formatted CSV has exactly the four
columns `ticker, exchange, country_code, name` in that order, for every
input and option choice; the screener's inline PEA generator instead emits
its detected columns in creation order `ticker, name, exchange,
country_code` (each of the first three present exactly when a source column
was detected, `country_code` always present). -/
theorem universe_csv_columns :
    (∀ (df : List (String × List String)) (tc : String) (nc ec cc : Option String) (a d : Bool),
      (pea_generator_out df tc nc ec cc a d).map Prod.fst
        = ["ticker", "exchange", "country_code", "name"]) ∧
    (∀ rawCols : List String, cand_ticker rawCols ≠ [] → cand_name rawCols ≠ [] →
      cand_market rawCols ≠ [] →
      screener_pea_out_cols rawCols = ["ticker", "name", "exchange", "country_code"]) := by
  constructor
  · intro df tc nc ec cc a d
    rfl
  · intro rawCols h1 h2 h3
    simp [screener_pea_out_cols, h1, h2, h3]

/-- C9 counterexample: on a source workbook with columns
`Ticker, Name, Market, Country` the screener's inline generator emits the
columns `ticker, name, exchange, country_code` in that order, not the
claimed `ticker, exchange, country_code, name`. -/
theorem screener_csv_columns_counterexample :
    ¬ screener_pea_out_cols ["Ticker", "Name", "Market", "Country"]
        = ["ticker", "exchange", "country_code", "name"] ∧
      screener_pea_out_cols ["Ticker", "Name", "Market", "Country"]
        = ["ticker", "name", "exchange", "country_code"] := by
  constructor <;> decide

/-- C9 witness: concrete instances of both halves of the amended claim. -/
theorem universe_csv_columns_witness :
    (pea_generator_out [("Mnemo", ["MC.PA", "SAN"])] "Mnemo" none none none true true).map
        Prod.fst = ["ticker", "exchange", "country_code", "name"] ∧
      screener_pea_out_cols ["Mnemonic", "Nom", "Place de cotation", "Pays"]
        = ["ticker", "name", "exchange", "country_code"] :=
  ⟨universe_csv_columns.1 [("Mnemo", ["MC.PA", "SAN"])] "Mnemo" none none none true true,
   universe_csv_columns.2 ["Mnemonic", "Nom", "Place de cotation", "Pays"]
     (by decide) (by decide) (by decide)⟩

/-! ## C2: the contraction score -/

/-- C2 (amended): the recorded `contraction_score` equals the specified
formula rounded half-to-even to four decimal places (the code applies
`round(score, 4)` before storing it). -/
theorem contraction_score_eq_rounded_formula (m : Metrics) (amax smax : ℚ) :
    contraction_score m amax smax = round4 (specScoreFormula m amax smax) := by
  unfold contraction_score
  have h : rawScore m amax smax = specScoreFormula m amax smax := by
    unfold rawScore specScoreFormula
    rcases m with ⟨c, v, bw, bp, a, s⟩
    cases bp <;> cases a <;> cases s <;> simp <;> ring
  rw [h]

/-- C2 counterexample: a row with bbw percentile 200/3 and undefined ATR
and sigma has formula value 1/3, but the recorded `contraction_score` is
its four-decimal rounding 3333/10000, so the stored score does not equal
the formula. -/
theorem contraction_score_round_counterexample :
    contraction_score mRound 2 (5 / 2) ≠ specScoreFormula mRound 2 (5 / 2) := by decide

/-! ## C3: the screening filter -/

/-- C3 (amended): a row is in the passing set iff its close is undefined or
at least the minimum price, its 20-day average volume is undefined or at
least the minimum volume, and its bbw percentile, ATR percent and sigma
percent are all defined and within their thresholds.  An undefined close or
average volume does NOT exclude the row (the price and volume `continue`
guards skip a row only when the metric is defined and below threshold);
only the three contraction metrics treat NaN as failing. -/
theorem screen_pass_iff (m : Metrics) (p : ScreenParams) :
    rowPasses m p ↔
      ((m.close = none ∨ ∃ c, m.close = some c ∧ p.min_price ≤ c) ∧
       (m.avg_vol_20 = none ∨ ∃ v, m.avg_vol_20 = some v ∧ p.min_avg_vol ≤ v) ∧
       (∃ b, m.bbw_percentile = some b ∧ b ≤ p.bbw_pct_threshold) ∧
       (∃ a, m.atr_pct = some a ∧ a ≤ p.max_atr_pct) ∧
       (∃ s, m.sigma20_pct = some s ∧ s ≤ p.max_sigma_pct)) := by
  rcases m with ⟨c, v, bw, bp, a, s⟩
  unfold rowPasses screenRow
  cases c <;> cases v <;> cases bp <;> cases a <;> cases s <;>
    simp [not_lt, and_assoc]

theorem sqrt_4_25 : Rat.sqrt (4 / 25 : ℚ) = 2 / 5 := by
  rw [show (4 / 25 : ℚ) = mkRat 4 25 from by decide, Rat.sqrt]
  norm_num

theorem sqrt_9_100 : Rat.sqrt (9 / 100 : ℚ) = 3 / 10 := by
  rw [show (9 / 100 : ℚ) = mkRat 9 100 from by decide, Rat.sqrt]
  norm_num

/-- Full evaluation of the indicator engine on the twelve-bar series
`pxC`: the average volume is NaN (fewer than 20 bars) while every
contraction metric is defined. -/
theorem compute_indicators_pxC : compute_indicators pxC 10 2 5 5 = mNaNVol := by
  have hperc : lastPercentile (bbwList (pxC.map (fun b => b.close)) 10 2) = some (100 / 3) := by
    have hb : bbwList (pxC.map (fun b => b.close)) 10 2 =
        [none, none, none, none, none, none, none, none, none,
         some (((6 / 5 + 2 * Rat.sqrt (4 / 25)) - (6 / 5 - 2 * Rat.sqrt (4 / 25))) / (6 / 5)),
         some (((11 / 10 + 2 * Rat.sqrt (9 / 100)) -
           (11 / 10 - 2 * Rat.sqrt (9 / 100))) / (11 / 10)),
         some 0] := rfl
    rw [hb, sqrt_4_25, sqrt_9_100]
    decide
  unfold compute_indicators mNaNVol
  rw [Metrics.mk.injEq]
  exact ⟨by decide, by decide, by decide, hperc, by decide, by decide⟩

/-- C3 counterexample: on the concrete twelve-bar series `pxC` the 20-day
average volume is undefined (NaN), yet the row is in the passing set under
the parameters `pDefault`; the claimed all-defined screening predicate
rejects it, refuting the claim that every row with an undefined required
input fails the filter. -/
theorem screen_nan_volume_counterexample :
    (compute_indicators pxC 10 2 5 5).avg_vol_20 = none ∧
      rowPasses (compute_indicators pxC 10 2 5 5) pDefault ∧
      claimedPass (compute_indicators pxC 10 2 5 5) pDefault = false := by
  rw [compute_indicators_pxC]
  exact ⟨rfl, by decide, by decide⟩

/-! ## C1: the bbw percentile is a full-history rank -/

/-- C1: `compute_indicators` returns as `bbw_percentile` exactly 100 times
the fraction of all defined historical bbw values that are at most the
latest defined bbw value; in particular, when the latest defined value is
the maximum of the whole bbw history the percentile is exactly 100. -/
theorem bbw_percentile_full_history_rank (px : List PriceBar) (bb_win : Nat) (bb_std : ℚ)
    (atr_win vol_win : Nat) (last : ℚ)
    (h : (dropna (bbwList (px.map (fun b => b.close)) bb_win bb_std)).getLast? = some last) :
    (compute_indicators px bb_win bb_std atr_win vol_win).bbw_percentile
      = some (100 * (((dropna (bbwList (px.map (fun b => b.close)) bb_win bb_std)).filter
          (fun x => x ≤ last)).length : ℚ) /
          ((dropna (bbwList (px.map (fun b => b.close)) bb_win bb_std)).length : ℚ)) ∧
    ((∀ x ∈ dropna (bbwList (px.map (fun b => b.close)) bb_win bb_std), x ≤ last) →
      (compute_indicators px bb_win bb_std atr_win vol_win).bbw_percentile = some 100) := by
  have hfield : (compute_indicators px bb_win bb_std atr_win vol_win).bbw_percentile
      = lastPercentile (bbwList (px.map (fun b => b.close)) bb_win bb_std) := rfl
  rw [hfield]
  unfold lastPercentile
  rw [h]
  dsimp only
  constructor
  · congr 1
    ring
  · intro hall
    have hfe : (dropna (bbwList (px.map (fun b => b.close)) bb_win bb_std)).filter
        (fun x => x ≤ last) = dropna (bbwList (px.map (fun b => b.close)) bb_win bb_std) :=
      List.filter_eq_self.mpr (fun x hx => decide_eq_true (hall x hx))
    rw [hfe]
    have hne : dropna (bbwList (px.map (fun b => b.close)) bb_win bb_std) ≠ [] := by
      intro h0
      rw [h0] at h
      simp at h
    have hlen : ((dropna (bbwList (px.map (fun b => b.close)) bb_win bb_std)).length : ℚ) ≠ 0 :=
      Nat.cast_ne_zero.mpr (fun hh => hne (List.length_eq_zero.mp hh))
    rw [div_self hlen]
    norm_num

/-- C1 witness: on a constant three-bar series (all bbw values zero, so the
latest defined value is the maximum of the history) the percentile is
exactly 100. -/
theorem bbw_percentile_full_history_rank_witness :
    (compute_indicators pxConst 2 2 2 2).bbw_percentile = some 100 :=
  (bbw_percentile_full_history_rank pxConst 2 2 2 2 0 (by decide)).2 (by decide)

/-! ## C10: bounds of the bbw percentile -/

/-- C10: when at least one bbw value is defined the percentile is defined,
strictly positive, at most 100, and at least 100 divided by the number of
defined bbw values (the latest defined value counts as at most itself);
the percentile is NaN exactly when no bbw value is defined. -/
theorem bbw_percentile_bounds (px : List PriceBar) (bb_win : Nat) (bb_std : ℚ)
    (atr_win vol_win : Nat) :
    ((dropna (bbwList (px.map (fun b => b.close)) bb_win bb_std)) ≠ [] →
      ∃ q : ℚ, (compute_indicators px bb_win bb_std atr_win vol_win).bbw_percentile = some q ∧
        0 < q ∧ q ≤ 100 ∧
        100 / ((dropna (bbwList (px.map (fun b => b.close)) bb_win bb_std)).length : ℚ) ≤ q) ∧
    ((compute_indicators px bb_win bb_std atr_win vol_win).bbw_percentile = none ↔
      dropna (bbwList (px.map (fun b => b.close)) bb_win bb_std) = []) := by
  have hfield : (compute_indicators px bb_win bb_std atr_win vol_win).bbw_percentile
      = lastPercentile (bbwList (px.map (fun b => b.close)) bb_win bb_std) := rfl
  rw [hfield]
  unfold lastPercentile
  cases hlast : (dropna (bbwList (px.map (fun b => b.close)) bb_win bb_std)).getLast? with
  | none =>
    have hnil : dropna (bbwList (px.map (fun b => b.close)) bb_win bb_std) = [] :=
      List.getLast?_eq_none_iff.mp hlast
    exact ⟨fun hne => absurd hnil hne, by simp [hnil]⟩
  | some last =>
    dsimp only
    have hmem : last ∈ dropna (bbwList (px.map (fun b => b.close)) bb_win bb_std) :=
      getLast?_mem _ _ hlast
    have hcnt : 0 < ((dropna (bbwList (px.map (fun b => b.close)) bb_win bb_std)).filter
        (fun x => x ≤ last)).length :=
      List.length_pos.mpr (List.ne_nil_of_mem (List.mem_filter.mpr ⟨hmem, by simp⟩))
    have hlenpos : 0 < (dropna (bbwList (px.map (fun b => b.close)) bb_win bb_std)).length :=
      List.length_pos.mpr (List.ne_nil_of_mem hmem)
    have hc : (0 : ℚ) < (((dropna (bbwList (px.map (fun b => b.close)) bb_win bb_std)).filter
        (fun x => x ≤ last)).length : ℚ) := by exact_mod_cast hcnt
    have hn : (0 : ℚ) < ((dropna (bbwList (px.map (fun b => b.close)) bb_win bb_std)).length : ℚ) := by
      exact_mod_cast hlenpos
    have hcn : (((dropna (bbwList (px.map (fun b => b.close)) bb_win bb_std)).filter
        (fun x => x ≤ last)).length : ℚ) ≤
        ((dropna (bbwList (px.map (fun b => b.close)) bb_win bb_std)).length : ℚ) := by
      exact_mod_cast List.length_filter_le _ _
    have hone : (1 : ℚ) ≤ (((dropna (bbwList (px.map (fun b => b.close)) bb_win bb_std)).filter
        (fun x => x ≤ last)).length : ℚ) := by exact_mod_cast hcnt
    constructor
    · intro _
      refine ⟨_, rfl, ?_, ?_, ?_⟩
      · exact mul_pos (div_pos hc hn) (by norm_num)
      · calc (((dropna (bbwList (px.map (fun b => b.close)) bb_win bb_std)).filter
              (fun x => x ≤ last)).length : ℚ) /
              ((dropna (bbwList (px.map (fun b => b.close)) bb_win bb_std)).length : ℚ) * 100
            ≤ 1 * 100 :=
              mul_le_mul_of_nonneg_right ((div_le_one hn).mpr hcn) (by norm_num)
          _ = 100 := by norm_num
      · calc 100 / ((dropna (bbwList (px.map (fun b => b.close)) bb_win bb_std)).length : ℚ)
            = 1 / ((dropna (bbwList (px.map (fun b => b.close)) bb_win bb_std)).length : ℚ)
              * 100 := by ring
          _ ≤ (((dropna (bbwList (px.map (fun b => b.close)) bb_win bb_std)).filter
              (fun x => x ≤ last)).length : ℚ) /
              ((dropna (bbwList (px.map (fun b => b.close)) bb_win bb_std)).length : ℚ) * 100 :=
              mul_le_mul_of_nonneg_right ((div_le_div_iff_of_pos_right hn).mpr hone) (by norm_num)
    · constructor
      · intro hx
        simp at hx
      · intro hx
        rw [hx] at hlast
        simp at hlast

/-- C10 witness: on a constant four-bar series the percentile is defined,
positive, at most 100 and at least 100 over the number of defined values. -/
theorem bbw_percentile_bounds_witness :
    ∃ q : ℚ, (compute_indicators pxConst2 2 2 2 2).bbw_percentile = some q ∧
      0 < q ∧ q ≤ 100 ∧
      100 / ((dropna (bbwList (pxConst2.map (fun b => b.close)) 2 2)).length : ℚ) ≤ q :=
  (bbw_percentile_bounds pxConst2 2 2 2 2).1 (by decide)

end Screener
